import Mathlib

/-!
Verification development for the `localOCR` batch image/PDF extraction app
(`src/app.py`).  The pure core of the program is shallowly embedded below:

* `Json` and `Json.loads` model Python's `json.loads` (values and the strict
  JSON grammar used by the standard library decoder);
* `insertKV` / `dictUpdate` model Python `dict` insertion-ordered update,
  including `dict.update` applied to non-dict JSON values (sequences of
  pair-like elements), where a mid-sequence failure leaves the partial
  mutation behind (the caller swallows the exception);
* `extract_structured_data`, `process_image`, `resize_image`, `process_pdf`,
  `total_items` and `runBatch` mirror the functions and the main processing
  loop of `app.py`;
* the structured CSV export block is embedded as `structuredCsv`.

The model call (`query_ollama`) is an external collaborator: the raw model
response text is an input of the embedded functions.  Image pixel data is
irrelevant to every claim; only dimensions (for `resize_image`) and the raw
response text per page are modelled.
-/

/-- JSON values as produced by Python's `json.loads`.  A number keeps its
source literal (no claim depends on numeric semantics); object members keep
insertion order, as Python dicts do. -/
inductive Json where
  | null
  | bool (b : Bool)
  | num (lit : String)
  | str (s : String)
  | arr (elems : List Json)
  | obj (members : List (String × Json))

mutual

/-- Structural decidable equality for `Json` (the derive handler does not
support this nested inductive). -/
def Json.decEq : (a b : Json) → Decidable (a = b)
  | .null, .null => .isTrue rfl
  | .bool a, .bool b =>
    if h : a = b then .isTrue (by rw [h]) else .isFalse (by intro hc; cases hc; exact h rfl)
  | .num a, .num b =>
    if h : a = b then .isTrue (by rw [h]) else .isFalse (by intro hc; cases hc; exact h rfl)
  | .str a, .str b =>
    if h : a = b then .isTrue (by rw [h]) else .isFalse (by intro hc; cases hc; exact h rfl)
  | .arr xs, .arr ys =>
    match Json.decEqList xs ys with
    | .isTrue h => .isTrue (by rw [h])
    | .isFalse h => .isFalse (by intro hc; cases hc; exact h rfl)
  | .obj ms, .obj ns =>
    match Json.decEqMembers ms ns with
    | .isTrue h => .isTrue (by rw [h])
    | .isFalse h => .isFalse (by intro hc; cases hc; exact h rfl)
  | .null, .bool _ => .isFalse nofun
  | .null, .num _ => .isFalse nofun
  | .null, .str _ => .isFalse nofun
  | .null, .arr _ => .isFalse nofun
  | .null, .obj _ => .isFalse nofun
  | .bool _, .null => .isFalse nofun
  | .bool _, .num _ => .isFalse nofun
  | .bool _, .str _ => .isFalse nofun
  | .bool _, .arr _ => .isFalse nofun
  | .bool _, .obj _ => .isFalse nofun
  | .num _, .null => .isFalse nofun
  | .num _, .bool _ => .isFalse nofun
  | .num _, .str _ => .isFalse nofun
  | .num _, .arr _ => .isFalse nofun
  | .num _, .obj _ => .isFalse nofun
  | .str _, .null => .isFalse nofun
  | .str _, .bool _ => .isFalse nofun
  | .str _, .num _ => .isFalse nofun
  | .str _, .arr _ => .isFalse nofun
  | .str _, .obj _ => .isFalse nofun
  | .arr _, .null => .isFalse nofun
  | .arr _, .bool _ => .isFalse nofun
  | .arr _, .num _ => .isFalse nofun
  | .arr _, .str _ => .isFalse nofun
  | .arr _, .obj _ => .isFalse nofun
  | .obj _, .null => .isFalse nofun
  | .obj _, .bool _ => .isFalse nofun
  | .obj _, .num _ => .isFalse nofun
  | .obj _, .str _ => .isFalse nofun
  | .obj _, .arr _ => .isFalse nofun

def Json.decEqList : (xs ys : List Json) → Decidable (xs = ys)
  | [], [] => .isTrue rfl
  | [], _ :: _ => .isFalse nofun
  | _ :: _, [] => .isFalse nofun
  | x :: xs, y :: ys =>
    match Json.decEq x y with
    | .isTrue h1 =>
      match Json.decEqList xs ys with
      | .isTrue h2 => .isTrue (by rw [h1, h2])
      | .isFalse h2 => .isFalse (by intro hc; cases hc; exact h2 rfl)
    | .isFalse h1 => .isFalse (by intro hc; cases hc; exact h1 rfl)

def Json.decEqMembers : (ms ns : List (String × Json)) → Decidable (ms = ns)
  | [], [] => .isTrue rfl
  | [], _ :: _ => .isFalse nofun
  | _ :: _, [] => .isFalse nofun
  | (k, v) :: ms, (l, w) :: ns =>
    if hk : k = l then
      match Json.decEq v w with
      | .isTrue h1 =>
        match Json.decEqMembers ms ns with
        | .isTrue h2 => .isTrue (by rw [hk, h1, h2])
        | .isFalse h2 => .isFalse (by intro hc; cases hc; exact h2 rfl)
      | .isFalse h1 => .isFalse (by intro hc; cases hc; exact h1 rfl)
    else .isFalse (by intro hc; cases hc; exact hk rfl)

end

instance : DecidableEq Json := Json.decEq

/-! ### The JSON decoder (`json.loads`)

A recursive-descent decoder for the grammar accepted by Python's standard
`json.loads` in its default strict mode: double-quoted strings with the
standard escapes, numbers `-?(0|[1-9][0-9]*)(.[0-9]+)?([eE][+-]?[0-9]+)?`,
literals `true`/`false`/`null` plus Python's `NaN`/`Infinity`/`-Infinity`
extensions, arrays and objects, and whitespace restricted to space, tab,
newline and carriage return.  `none` models a raised `JSONDecodeError`. -/

/-- Whitespace characters skipped by the JSON decoder. -/
def jsonWsChar (c : Char) : Bool :=
  c = ' ' || c = '\t' || c = '\n' || c = '\r'

/-- Drop leading JSON whitespace. -/
def skipWs : List Char → List Char
  | [] => []
  | c :: cs => if jsonWsChar c then skipWs cs else c :: cs

/-- Value of a hexadecimal digit. -/
def hexVal (c : Char) : Option Nat :=
  if '0' ≤ c ∧ c ≤ '9' then some (c.toNat - '0'.toNat)
  else if 'a' ≤ c ∧ c ≤ 'f' then some (c.toNat - 'a'.toNat + 10)
  else if 'A' ≤ c ∧ c ≤ 'F' then some (c.toNat - 'A'.toNat + 10)
  else none

/-- Single-character string escapes. -/
def escChar : Char → Option Char
  | '"' => some '"'
  | '\\' => some '\\'
  | '/' => some '/'
  | 'b' => some (Char.ofNat 8)
  | 'f' => some (Char.ofNat 12)
  | 'n' => some '\n'
  | 'r' => some '\r'
  | 't' => some '\t'
  | _ => none

/-- Scan the body of a JSON string after the opening quote; returns the
decoded characters and the input after the closing quote.  Unescaped control
characters are rejected (strict mode). -/
def strChars : List Char → Option (List Char × List Char)
  | [] => none
  | c :: rest =>
    if c = '"' then some ([], rest)
    else if c = '\\' then
      match rest with
      | 'u' :: h1 :: h2 :: h3 :: h4 :: rest2 =>
        match hexVal h1, hexVal h2, hexVal h3, hexVal h4 with
        | some a, some b, some c2, some d =>
          match strChars rest2 with
          | some (cs, r) => some (Char.ofNat (((a * 16 + b) * 16 + c2) * 16 + d) :: cs, r)
          | none => none
        | _, _, _, _ => none
      | e :: rest2 =>
        match escChar e with
        | some c2 =>
          match strChars rest2 with
          | some (cs, r) => some (c2 :: cs, r)
          | none => none
        | none => none
      | [] => none
    else if c.toNat < 32 then none
    else
      match strChars rest with
      | some (cs, r) => some (c :: cs, r)
      | none => none

/-- Integer part of a number: `0` or a nonzero digit followed by digits. -/
def intPartDigits : List Char → Option (List Char × List Char)
  | [] => none
  | c :: rest =>
    if c = '0' then some (['0'], rest)
    else if c.isDigit then
      let (ds, r) := rest.span Char.isDigit
      some (c :: ds, r)
    else none

/-- Optional fraction part `.[0-9]+`; not consumed when absent or malformed
(the number then ends before the dot, matching the decoder's regex). -/
def fracPartDigits : List Char → List Char × List Char
  | '.' :: rest =>
    let (ds, r) := rest.span Char.isDigit
    if ds.isEmpty then ([], '.' :: rest) else ('.' :: ds, r)
  | cs => ([], cs)

/-- Optional exponent part `[eE][+-]?[0-9]+`; not consumed when malformed. -/
def expPartDigits : List Char → List Char × List Char
  | c :: rest =>
    if c = 'e' ∨ c = 'E' then
      match rest with
      | s :: rest2 =>
        if s = '+' ∨ s = '-' then
          let (ds, r) := rest2.span Char.isDigit
          if ds.isEmpty then ([], c :: s :: rest2) else (c :: s :: ds, r)
        else
          let (ds, r) := rest.span Char.isDigit
          if ds.isEmpty then ([], c :: rest) else (c :: ds, r)
      | [] => ([], [c])
    else ([], c :: rest)
  | [] => ([], [])

/-- Parse a JSON number literal, keeping its source text. -/
def parseNumberLit (cs : List Char) : Option (String × List Char) :=
  match cs with
  | '-' :: rest =>
    match intPartDigits rest with
    | some (ds, r) => some (numberEnd ('-' :: ds) r)
    | none => none
  | _ =>
    match intPartDigits cs with
    | some (ds, r) => some (numberEnd ds r)
    | none => none
where
  numberEnd (ds : List Char) (r : List Char) : String × List Char :=
    let (f, r2) := fracPartDigits r
    let (e, r3) := expPartDigits r2
    (⟨ds ++ f ++ e⟩, r3)

/-- Drop `pat` from the front of `cs`, or fail. -/
def stripPre (pat : List Char) (cs : List Char) : Option (List Char) :=
  match pat, cs with
  | [], cs => some cs
  | p :: ps, c :: cs => if p = c then stripPre ps cs else none
  | _ :: _, [] => none

/-- Insert a member into an object under construction: a duplicate key keeps
its first position and takes the later value (Python dict assignment). -/
def insertStr (ms : List (String × Json)) (k : String) (v : Json) : List (String × Json) :=
  if ms.any (fun p => p.1 = k) then
    ms.map (fun p => if p.1 = k then (p.1, v) else p)
  else ms ++ [(k, v)]

mutual

/-- Parse one JSON value (no leading whitespace); fuel bounds recursion. -/
def parseValue : Nat → List Char → Option (Json × List Char)
  | 0, _ => none
  | Nat.succ fuel, cs =>
    match cs with
    | [] => none
    | c :: rest =>
      if c = '{' then
        match skipWs rest with
        | '}' :: r => some (.obj [], r)
        | cs2 => parseMembers fuel cs2 []
      else if c = '[' then
        match skipWs rest with
        | ']' :: r => some (.arr [], r)
        | cs2 => parseElems fuel cs2 []
      else if c = '"' then
        match strChars rest with
        | some (scs, r) => some (.str ⟨scs⟩, r)
        | none => none
      else if c = 't' then
        match stripPre ['r', 'u', 'e'] rest with
        | some r => some (.bool true, r)
        | none => none
      else if c = 'f' then
        match stripPre ['a', 'l', 's', 'e'] rest with
        | some r => some (.bool false, r)
        | none => none
      else if c = 'n' then
        match stripPre ['u', 'l', 'l'] rest with
        | some r => some (.null, r)
        | none => none
      else if c = 'N' then
        match stripPre ['a', 'N'] rest with
        | some r => some (.num "NaN", r)
        | none => none
      else if c = 'I' then
        match stripPre ['n', 'f', 'i', 'n', 'i', 't', 'y'] rest with
        | some r => some (.num "Infinity", r)
        | none => none
      else if c = '-' ∧ rest.headD ' ' = 'I' then
        match stripPre ['I', 'n', 'f', 'i', 'n', 'i', 't', 'y'] rest with
        | some r => some (.num "-Infinity", r)
        | none => none
      else
        match parseNumberLit (c :: rest) with
        | some (lit, r) => some (.num lit, r)
        | none => none

/-- Parse object members (expects a key string next). -/
def parseMembers : Nat → List Char → List (String × Json) → Option (Json × List Char)
  | 0, _, _ => none
  | Nat.succ fuel, cs, acc =>
    match cs with
    | '"' :: rest =>
      match strChars rest with
      | some (kcs, r1) =>
        match skipWs r1 with
        | ':' :: r2 =>
          match parseValue fuel (skipWs r2) with
          | some (v, r3) =>
            let acc2 := insertStr acc ⟨kcs⟩ v
            match skipWs r3 with
            | ',' :: r4 => parseMembers fuel (skipWs r4) acc2
            | '}' :: r4 => some (.obj acc2, r4)
            | _ => none
          | none => none
        | _ => none
      | none => none
    | _ => none

/-- Parse array elements (expects a value next). -/
def parseElems : Nat → List Char → List Json → Option (Json × List Char)
  | 0, _, _ => none
  | Nat.succ fuel, cs, acc =>
    match parseValue fuel cs with
    | some (v, r) =>
      match skipWs r with
      | ',' :: r2 => parseElems fuel (skipWs r2) (acc ++ [v])
      | ']' :: r2 => some (.arr (acc ++ [v]), r2)
      | _ => none
    | none => none

end

/-- `json.loads`: decode a whole string as one JSON value; `none` models a
raised `JSONDecodeError` (including trailing garbage). -/
def Json.loads (s : String) : Option Json :=
  match parseValue (2 * s.length + 4) (skipWs s.data) with
  | some (j, r) => if (skipWs r).isEmpty then some j else none
  | none => none

/-! ### Python dict semantics

`structured_data` in `app.py` is a Python dict whose keys arise from JSON
object keys, from `dict.update` applied to pair-like sequence elements, and
from the synthetic `filename` entry.  It is modelled as an insertion-ordered
association list with distinct keys.  `dict.update(x)` with a non-dict `x`
iterates `x` as a sequence of key/value pairs and can fail part-way through
with `TypeError`/`ValueError`, leaving the pairs already processed in the
dict; the `Bool` result records success (`true`) or a raised error. -/

/-- A Python dict with JSON keys and values, in insertion order. -/
abbrev JDict := List (Json × Json)

/-- `d[k] = v`: replace the value at an existing key in place, else append. -/
def insertKV (d : JDict) (k v : Json) : JDict :=
  if d.any (fun p => p.1 = k) then d.map (fun p => if p.1 = k then (p.1, v) else p)
  else d ++ [(k, v)]

/-- `dict.update` with another dict: assign its members in order. -/
def dictUpdateDict (d : JDict) (e : JDict) : JDict :=
  e.foldl (fun acc kv => insertKV acc kv.1 kv.2) d

/-- Whether a JSON value may be a dict key (lists and dicts are unhashable). -/
def hashableKey : Json → Bool
  | .arr _ => false
  | .obj _ => false
  | _ => true

/-- Unpack one sequence element as a key/value pair the way
`dict.update(seq)` does: a two-element array (whose key must be hashable),
a two-character string (its characters), or a two-member dict (its keys);
`none` models the `TypeError`/`ValueError` raised otherwise. -/
def pairOfElem : Json → Option (Json × Json)
  | .arr [k, v] => if hashableKey k then some (k, v) else none
  | .arr _ => none
  | .str s =>
    match s.data with
    | [c1, c2] => some (.str ⟨[c1]⟩, .str ⟨[c2]⟩)
    | _ => none
  | .obj [(k1, _), (k2, _)] => some (.str k1, .str k2)
  | .obj _ => none
  | _ => none

/-- Fold pair-like elements into the dict, stopping at the first bad element
with the partial result (the mutation already performed survives the raised
error). -/
def updatePairs (d : JDict) : List Json → JDict × Bool
  | [] => (d, true)
  | e :: rest =>
    match pairOfElem e with
    | some (k, v) => updatePairs (insertKV d k v) rest
    | none => (d, false)

/-- `structured_data.update(extracted_data)` for an arbitrary decoded JSON
value: dicts merge; arrays and strings are iterated as pair sequences; other
values are not iterable (`TypeError`). -/
def dictUpdate (d : JDict) (j : Json) : JDict × Bool :=
  match j with
  | .obj ms => (dictUpdateDict d (ms.map (fun kv => (Json.str kv.1, kv.2))), true)
  | .arr es => updatePairs d es
  | .str s => updatePairs d (s.data.map (fun c => Json.str ⟨[c]⟩))
  | _ => (d, false)

/-! ### Python string primitives

The string operations the source uses — `split(sep)`, `strip()`, `lower()`,
`endswith()`, substring `in` — written as structural recursions over the
character list so that every definition evaluates inside the kernel. -/

/-- Characters removed by Python `str.strip()` (the ASCII whitespace set). -/
def pySpaceChar (c : Char) : Bool :=
  c = ' ' || c = '\t' || c = '\n' || c = '\r' || c = Char.ofNat 11 || c = Char.ofNat 12

/-- Python `str.strip()`. -/
def pyStrip (s : String) : String :=
  ⟨((s.data.dropWhile pySpaceChar).reverse.dropWhile pySpaceChar).reverse⟩

/-- Python `str.lower()` (ASCII letters, the only ones appearing here). -/
def pyLower (s : String) : String := ⟨s.data.map Char.toLower⟩

/-- Python `str.endswith(sfx)`. -/
def pyEndsWith (s sfx : String) : Bool := List.isSuffixOf sfx.data s.data

/-- Python `str.split(sep)` for a non-empty separator: leftmost separator
occurrences cut the string.  The fuel counts loop steps; each step consumes
at least one character, so `length + 1` never runs out. -/
def pySplitFuel (sep : List Char) : Nat → List Char → List Char → List (List Char)
  | 0, cs, cur => [cur.reverse ++ cs]
  | Nat.succ fuel, cs, cur =>
    match stripPre sep cs with
    | some rest => cur.reverse :: pySplitFuel sep fuel rest []
    | none =>
      match cs with
      | [] => [cur.reverse]
      | c :: cs2 => pySplitFuel sep fuel cs2 (c :: cur)

/-- Python `s.split(sep)`. -/
def pySplit (s sep : String) : List String :=
  (pySplitFuel sep.data (s.data.length + 1) s.data []).map (fun cs => ⟨cs⟩)

/-! ### `extract_structured_data` (app.py lines 125-151) -/

/-- Python `sub in s` substring test. -/
def containsSub (s pat : String) : Bool := 1 < (pySplit s pat).length

/-- The condition at app.py line 131: the text contains a fenced block, i.e.
it contains the opening marker and the text after the first opening marker
contains a closing triple backtick. -/
def fenceCond (content : String) : Bool :=
  match pySplit content "```json" with
  | _ :: after :: _ => 1 < (pySplit after "```").length
  | _ => false

/-- The fenced block's body (line 132): the text after the first opening
marker, cut at the first triple backtick, stripped. -/
def fencedText (content : String) : String :=
  match pySplit content "```json" with
  | _ :: after :: _ => pyStrip ((pySplit after "```").headD "")
  | _ => ""

/-- The fallback loop (lines 137-146): for each field whose trimmed name
appears quoted (either quote style) in the raw text, try to decode the whole
text; on decode failure move to the next field, on success merge and stop —
where a merge failure keeps the partial merge and moves on. -/
def fieldScan (content : String) : List String → JDict → JDict
  | [], d => d
  | f :: rest, d =>
    let fc := pyStrip f
    if containsSub content ("\"" ++ fc ++ "\"") || containsSub content ("'" ++ fc ++ "'") then
      match Json.loads content with
      | none => fieldScan content rest d
      | some j =>
        match dictUpdate d j with
        | (d2, true) => d2
        | (d2, false) => fieldScan content rest d2
    else fieldScan content rest d

/-- `extract_structured_data(content, fields)`: fenced-block path first; its
decode or merge failure is caught by the enclosing handler and returns what
was accumulated (nothing, or a partial merge); without a fenced block, the
quoted-field-name scan runs.  Total by construction — every exception path
of the source is a value here ("never raises"). -/
def extract_structured_data (content : String) (fields : List String) : JDict :=
  if fenceCond content then
    match Json.loads (fencedText content) with
    | none => []
    | some j => (dictUpdate [] j).1
  else
    fieldScan content fields []

/-! ### `resize_image` (app.py lines 84-99)

Only the dimension arithmetic is modelled.  Python computes
`int(height * (max_size / width))` in floating point and `int` truncates;
the model uses the exact rational value with truncating natural division. -/

/-- Output dimensions of `resize_image` for an input of the given size. -/
def resize_image (width height : Nat) (max_size : Nat := 1024) : Nat × Nat :=
  if max_size < width ∨ max_size < height then
    if height < width then (max_size, height * max_size / width)
    else (width * max_size / height, max_size)
  else (width, height)

/-! ### `process_image` (app.py lines 154-190)

The model call is external: `content` is the raw response text for this
page.  Returns the flat result dict, the raw content, and (in field
extraction mode) the structured record seeded with `filename`. -/

/-- `process_image(image, filename, fields)` after the model call returned
`content`. -/
def process_image (filename content : String) (fields : Option (List String)) :
    List (String × String) × String × Option JDict :=
  match fields with
  | none => ([("filename", filename), ("description", content)], content, none)
  | some fs =>
    let result := [("filename", filename), ("extraction", content)]
    let structured := dictUpdateDict [(Json.str "filename", Json.str filename)]
      (extract_structured_data content fs)
    (result, content, some structured)

/-! ### `process_pdf` and the main processing loop (app.py lines 193-372)

An uploaded file is its name plus the behaviour of the two ways the code may
read it: `pdfDoc` is the outcome of `fitz.open` (`none` = raises; otherwise
the pages, each `none` when processing that page raises, e.g. a failed model
call) and `imgResponse` the outcome of the image pipeline (`none` = raises).
The code chooses the branch solely by the lowercased `.pdf` name suffix. -/

structure FileSpec where
  name : String
  pdfDoc : Option (List (Option String))
  imgResponse : Option String

/-- `uploaded_file.name.lower().endswith(".pdf")`. -/
def isPdfName (s : String) : Bool := pyEndsWith (pyLower s) ".pdf"

/-- One item yielded by the `process_pdf` generator: a processed page, or the
error tuple `(None, None, None, filename, msg, None)`. -/
inductive PdfYield where
  | page (pageNum pageCount : Nat) (pageFilename content : String) (sd : Option JDict)
  | err (filename msg : String)

/-- The per-page display name `f"..name.. (Page ..n+1..)"`. -/
def pageLabel (filename : String) (pageNum : Nat) : String :=
  filename ++ " (Page " ++ toString (pageNum + 1) ++ ")"

/-- Pages of one document in order; the first page whose processing raises
makes the generator's handler yield a single error tuple and stop, skipping
the remaining pages. -/
def pdfPagesLoop (filename : String) (fields : Option (List String)) (pageCount : Nat) :
    List (Option String) → Nat → List PdfYield
  | [], _ => []
  | none :: _, _ => [.err filename "Error processing PDF"]
  | some content :: rest, i =>
    let pf := pageLabel filename i
    let sd := (process_image pf content fields).2.2
    .page i pageCount pf content sd :: pdfPagesLoop filename fields pageCount rest (i + 1)

/-- The sequence of values yielded by `process_pdf`. -/
def process_pdf (doc : Option (List (Option String))) (filename : String)
    (fields : Option (List String)) (process_pages_separately : Bool) : List PdfYield :=
  match doc with
  | none => [.err filename "Error processing PDF"]
  | some pages =>
    if process_pages_separately then
      pdfPagesLoop filename fields pages.length pages 0
    else
      match pages with
      | [] => [.err filename "Error processing PDF"]
      | none :: _ => [.err filename "Error processing PDF"]
      | some content :: _ =>
        let sd := (process_image filename content fields).2.2
        [.page 0 pages.length filename content sd]

/-- The flat result dict the main loop builds for a PDF yield (lines
307-310): keyed `description` in both modes, and named after the page in
per-page mode, after the document otherwise. -/
def pdfFlatResult (process_separately : Bool) (docName pageFilename content : String) :
    List (String × String) :=
  if process_separately then [("filename", pageFilename), ("description", content)]
  else [("filename", docName), ("description", content)]

/-- Orchestrator state: the two session-state collections and the work-unit
counter. -/
structure BatchState where
  results : List (List (String × String))
  structured : List JDict
  processed : Nat

/-- The body of the loop over `process_pdf` yields (lines 297-333): the
error tuple is reported and skipped (`continue`) — reaching neither the
appends nor the counter increment; a page yield appends its flat result,
appends the structured record when it has more than the `filename` key, and
increments the counter. -/
def handleYield (process_separately : Bool) (docName : String) (s : BatchState) :
    PdfYield → BatchState
  | .err _ _ => s
  | .page _ _ pageFilename content sd =>
    let s1 : BatchState :=
      { s with results := s.results ++ [pdfFlatResult process_separately docName pageFilename content] }
    let s2 : BatchState :=
      match sd with
      | some d => if 1 < d.length then { s1 with structured := s1.structured ++ [d] } else s1
      | none => s1
    { s2 with processed := s2.processed + 1 }

/-- Processing of one uploaded file by the main loop (lines 281-370).  PDF
names without PDF support only advance the counter.  For an image, the
`try` covers the result appends — note the structured append (line 350) is
guarded only by dict truthiness, not by `len > 1` — and the counter
increment sits after the handler, so it always runs.  The `except` around
the PDF yield loop (lines 335-338) is not modelled: `process_pdf` catches
every exception of the work itself and turns it into the error tuple, so
that handler is reachable only from presentation-layer calls. -/
def processFile (pdfSupport perPage : Bool) (fields : Option (List String))
    (s : BatchState) (f : FileSpec) : BatchState :=
  if isPdfName f.name then
    if pdfSupport = false then { s with processed := s.processed + 1 }
    else (process_pdf f.pdfDoc f.name fields perPage).foldl (handleYield perPage f.name) s
  else
    match f.imgResponse with
    | some content =>
      let r := process_image f.name content fields
      let s1 : BatchState := { s with results := s.results ++ [r.1] }
      let s2 : BatchState :=
        match r.2.2 with
        | some d => if d.isEmpty then s1 else { s1 with structured := s1.structured ++ [d] }
        | none => s1
      { s2 with processed := s2.processed + 1 }
    | none => { s with processed := s.processed + 1 }

/-- The whole batch run (lines 244-372): collections cleared, then the files
processed in upload order. -/
def runBatch (pdfSupport perPage : Bool) (fields : Option (List String))
    (files : List FileSpec) : BatchState :=
  files.foldl (processFile pdfSupport perPage fields) ⟨[], [], 0⟩

/-- Work units one file contributes to `total_items` (lines 258-276): a PDF
(with support) counts its page count in per-page mode — or 1 when `fitz.open`
raises — and 1 in whole-document mode; anything else counts 1. -/
def countItem (pdfSupport perPage : Bool) (f : FileSpec) : Nat :=
  if isPdfName f.name && pdfSupport then
    if perPage then
      match f.pdfDoc with
      | some pages => pages.length
      | none => 1
    else 1
  else 1

/-- The counting pass over the uploaded files (lines 254-276), run before
any unit is processed. -/
def total_items (pdfSupport perPage : Bool) (files : List FileSpec) : Nat :=
  files.foldl (fun acc f => acc + countItem pdfSupport perPage f) 0

/-! ### The structured CSV export block (app.py lines 402-418) -/

/-- The string under a key, when the key is a string. -/
def strKeyOf (p : Json × Json) : Option String :=
  match p.1 with
  | .str s => some s
  | _ => none

/-- The string keys of one structured record. -/
def recordFields (r : JDict) : List String := r.filterMap strKeyOf

/-- Whether every key of every record is a string.  When violated, Python's
`sorted` raises on the mixed-type key set and the export block dies. -/
def allKeysAreStrings (records : List JDict) : Bool :=
  records.all (fun r => r.all (fun p => (strKeyOf p).isSome))

/-- `all_fields`: the set seeded with `filename` and extended with every
record's keys. -/
def fieldFinset (records : List JDict) : Finset String :=
  records.foldl (fun s r => s ∪ (recordFields r).toFinset) {"filename"}

/-- `field_list = sorted(list(all_fields))`. -/
def field_list (records : List JDict) : List String :=
  (fieldFinset records).sort (· ≤ ·)

/-- Python `dict.get(k)` as `Option`. -/
def jdictGet (r : JDict) (k : Json) : Option Json :=
  (r.find? (fun p => p.1 = k)).map Prod.snd

/-- `result.get(field, '')`: the cell written for one record and column. -/
def csvCell (r : JDict) (k : String) : Json :=
  (jdictGet r (Json.str k)).getD (Json.str "")

/-- The structured CSV: header row plus one row per record, in record order;
`none` models the `TypeError` from sorting a key set holding non-strings. -/
def structuredCsv (records : List JDict) : Option (List String × List (List Json)) :=
  if allKeysAreStrings records then
    some (field_list records, records.map (fun r => (field_list records).map (fun k => csvCell r k)))
  else none

/-! ### Claim-side definitions -/

/-- Whether a JSON value is neither an object nor an array. -/
def jsonAtom : Json → Bool
  | .obj _ => false
  | .arr _ => false
  | _ => true

/-- Modelled from the spec (claim C4): the claimed short side
`round(short_side * max_dimension / long_side)`, as exact rational rounding
(half rounds up; the chosen counterexample is not a half, so the tie rule is
irrelevant). -/
def specRoundedShort (short maxd long : Nat) : Nat :=
  (2 * short * maxd + long) / (2 * long)

/-- Modelled from the spec (claim C8): the work units the claim assigns to
one uploaded file — 1 per image, the page count per PDF in per-page mode,
1 per PDF in whole-document mode, and 1 per PDF whose bytes cannot be
parsed.  A second definition written from the claim's words, to compare
with `total_items` taken from the source. -/
def claimedUnitCount (perPage : Bool) (f : FileSpec) : Nat :=
  if isPdfName f.name = false then 1
  else if perPage = false then 1
  else
    match f.pdfDoc with
    | none => 1
    | some pages => pages.length

/-! ### Helper lemmas -/

theorem fieldScan_loads_none (content : String) (h : Json.loads content = none)
    (fields : List String) : ∀ d : JDict, fieldScan content fields d = d := by
  induction fields with
  | nil => intro d; rfl
  | cons f rest ih =>
    intro d
    unfold fieldScan
    split
    next =>
      simp only [ite_self]
      exact ih d
    next j heq =>
      rw [h] at heq
      cases heq

theorem countItem_eq_claimed (perPage : Bool) (f : FileSpec) :
    countItem true perPage f = claimedUnitCount perPage f := by
  unfold countItem claimedUnitCount
  cases hpdf : isPdfName f.name <;> cases perPage <;> cases f.pdfDoc <;> simp

theorem foldl_union_mem (l : List JDict) (init : Finset String) (k : String) :
    k ∈ l.foldl (fun s r => s ∪ (recordFields r).toFinset) init ↔
      k ∈ init ∨ ∃ r ∈ l, k ∈ recordFields r := by
  induction l generalizing init with
  | nil => simp
  | cons r rs ih =>
    simp only [List.foldl_cons, ih, Finset.mem_union, List.mem_toFinset, List.mem_cons]
    constructor
    · rintro (⟨hk | hk⟩ | ⟨r', hr', hk⟩)
      · exact Or.inl hk
      · exact Or.inr ⟨r, Or.inl rfl, hk⟩
      · exact Or.inr ⟨r', Or.inr hr', hk⟩
    · rintro (hk | ⟨r', hr' | hr', hk⟩)
      · exact Or.inl (Or.inl hk)
      · exact Or.inl (Or.inr (hr' ▸ hk))
      · exact Or.inr ⟨r', hr', hk⟩

theorem mem_recordFields (r : JDict) (k : String) :
    k ∈ recordFields r ↔ ∃ v, (Json.str k, v) ∈ r := by
  simp only [recordFields, List.mem_filterMap]
  constructor
  · rintro ⟨⟨p1, p2⟩, hp, hpk⟩
    cases p1 <;> simp only [strKeyOf, Option.some.injEq, reduceCtorEq] at hpk
    exact ⟨p2, hpk ▸ hp⟩
  · rintro ⟨v, hv⟩
    exact ⟨(Json.str k, v), hv, rfl⟩

theorem csvCell_of_not_mem (r : JDict) (k : String) (h : ∀ v : Json, (Json.str k, v) ∉ r) :
    csvCell r k = Json.str "" := by
  unfold csvCell jdictGet
  rw [List.find?_eq_none.mpr]
  · rfl
  · rintro ⟨p1, p2⟩ hp
    simp only [decide_eq_true_eq]
    intro hc
    exact h p2 (by rw [← hc]; exact hp)

/-! ### Claim theorems -/

/-- C1: the claim says a StructuredRecord is appended to the batch's
structured collection iff it has more than the single `filename` key.  The
code violates this in the image branch (app.py line 350): the append is
guarded only by dict truthiness, so this run of one image whose response
contains no recoverable JSON appends a record holding only `filename`. -/
theorem image_branch_appends_filename_only_record :
    (runBatch true true (some ["Total"])
        [⟨"a.png", none, some "Sorry, I cannot read this document."⟩]).structured =
      [[(Json.str "filename", Json.str "a.png")]] ∧
    (runBatch true true (some ["Total"])
        [⟨"a.png", none, some "Sorry, I cannot read this document."⟩]).structured.map
        List.length = [1] := by decide

/-- C2: the claim says every per-unit failure advances the work-unit counter
so it reaches the precomputed total.  For a PDF whose bytes cannot be parsed
the generator yields the error tuple, the loop `continue`s past the
increment, and the counter stalls: here 2 units were counted, the batch
continues with the next file (one result is recorded), yet only 1 unit is
ever counted as processed, so progress ends at 1/2. -/
theorem pdf_failure_stalls_work_counter :
    (runBatch true true (some ["Total"])
        [⟨"bad.pdf", none, none⟩, ⟨"ok.png", none, some "hi"⟩]).processed = 1 ∧
    total_items true true [⟨"bad.pdf", none, none⟩, ⟨"ok.png", none, some "hi"⟩] = 2 ∧
    (runBatch true true (some ["Total"])
        [⟨"bad.pdf", none, none⟩, ⟨"ok.png", none, some "hi"⟩]).results.length = 1 := by decide

/-- C3 counterexample: a processed PDF page in ExtractFields mode whose
recorded flat result has no `extraction` key at all — the raw model text is
stored under `description` instead, so the claim as stated is false. -/
theorem pdf_unit_lacks_extraction_key :
    (runBatch true true (some ["Total"]) [⟨"d.pdf", some [some "RAW"], none⟩]).results =
      [[("filename", "d.pdf (Page 1)"), ("description", "RAW")]] ∧
    List.lookup "extraction" [("filename", "d.pdf (Page 1)"), ("description", "RAW")] = none := by
  decide

/-- C3 amended: the flat result of every processed unit carries the full raw
model text — under `extraction` for an image unit, but under `description`
for a PDF unit (either mode), whose result has no `extraction` key. -/
theorem raw_text_recorded_per_unit (filename content docName pageFilename : String)
    (fs : List String) (pp : Bool) :
    List.lookup "extraction" (process_image filename content (some fs)).1 = some content ∧
    List.lookup "description" (pdfFlatResult pp docName pageFilename content) = some content ∧
    List.lookup "extraction" (pdfFlatResult pp docName pageFilename content) = none := by
  refine ⟨rfl, ?_, ?_⟩
  · cases pp <;> rfl
  · cases pp <;> rfl

/-- C4 counterexample: for a 1500x999 image the code truncates the scaled
short side to 681 (`int(999 * (1024 / 1500))`), while the claim's
`round(999 * 1024 / 1500)` is 682 (the exact value 681.984 is not a tie, so
any rounding convention gives 682). -/
theorem resize_short_side_truncates_not_rounds :
    resize_image 1500 999 1024 = (1024, 681) ∧
    specRoundedShort 999 1024 1500 = 682 ∧ (681 : Nat) ≠ 682 := by decide

/-- C4 amended: an image with both sides ≤ max_dimension is returned with
unchanged dimensions; otherwise the output's longer side equals
max_dimension exactly and the shorter side is the truncation
short_side * max_dimension / long_side (floor, not round — still within one
pixel of the exact ratio). -/
theorem resize_dims_characterization (w h m : Nat) :
    (w ≤ m ∧ h ≤ m → resize_image w h m = (w, h)) ∧
    ((m < w ∨ m < h) →
      max (resize_image w h m).1 (resize_image w h m).2 = m ∧
      min (resize_image w h m).1 (resize_image w h m).2 = min w h * m / max w h) := by
  constructor
  · rintro ⟨hw, hh⟩
    unfold resize_image
    have hc : ¬(m < w ∨ m < h) := by
      rintro (hc | hc)
      · exact absurd hw (Nat.not_le.mpr hc)
      · exact absurd hh (Nat.not_le.mpr hc)
    rw [if_neg hc]
  · intro hbig
    unfold resize_image
    rw [if_pos hbig]
    by_cases hwh : h < w
    · rw [if_pos hwh]
      have hw0 : 0 < w := Nat.lt_of_le_of_lt (Nat.zero_le h) hwh
      have hle : h * m / w ≤ m := by
        have h1 : h * m ≤ w * m := Nat.mul_le_mul_right m (Nat.le_of_lt hwh)
        have h2 : h * m / w ≤ w * m / w := Nat.div_le_div_right h1
        rwa [Nat.mul_div_cancel_left m hw0] at h2
      refine ⟨max_eq_left hle, ?_⟩
      rw [min_eq_right hle, min_eq_right (Nat.le_of_lt hwh), max_eq_left (Nat.le_of_lt hwh)]
    · rw [if_neg hwh]
      have hwle : w ≤ h := Nat.le_of_not_lt hwh
      have hh0 : 0 < h := by
        rcases hbig with hb | hb
        · exact Nat.lt_of_le_of_lt (Nat.zero_le m) (Nat.lt_of_lt_of_le hb hwle)
        · exact Nat.lt_of_le_of_lt (Nat.zero_le m) hb
      have hle : w * m / h ≤ m := by
        have h1 : w * m ≤ h * m := Nat.mul_le_mul_right m hwle
        have h2 : w * m / h ≤ h * m / h := Nat.div_le_div_right h1
        rwa [Nat.mul_div_cancel_left m hh0] at h2
      refine ⟨max_eq_right hle, ?_⟩
      rw [min_eq_left hle, min_eq_left hwle, max_eq_right hwle]

/-- C4 amended witness: a small image is unchanged; a 1500x999 image gets
longer side exactly 1024. -/
theorem resize_dims_characterization_witness :
    resize_image 800 600 1024 = (800, 600) ∧
    max (resize_image 1500 999 1024).1 (resize_image 1500 999 1024).2 = 1024 :=
  ⟨(resize_dims_characterization 800 600 1024).1 ⟨by decide, by decide⟩,
    ((resize_dims_characterization 1500 999 1024).2 (Or.inl (by decide))).1⟩

/-- C5: `extract_structured_data` never raises (it is total by
construction), and whenever the decode of the relevant text fails — the
fenced block's body when a fenced block is present, the whole raw text
otherwise — it returns the empty mapping. -/
theorem extract_returns_empty_on_parse_failure (content : String) (fields : List String)
    (h : Json.loads (if fenceCond content then fencedText content else content) = none) :
    extract_structured_data content fields = [] := by
  unfold extract_structured_data
  by_cases hf : fenceCond content = true
  · rw [if_pos hf] at h ⊢
    rw [h]
  · rw [if_neg hf] at h ⊢
    exact fieldScan_loads_none content h fields []

/-- C5 witness: the spec's own malformed example returns the empty
mapping. -/
theorem extract_returns_empty_on_parse_failure_witness :
    Json.loads (if fenceCond "Sorry, I cannot read this document."
        then fencedText "Sorry, I cannot read this document."
        else "Sorry, I cannot read this document.") = none ∧
    extract_structured_data "Sorry, I cannot read this document." ["Total"] = [] :=
  ⟨by decide, extract_returns_empty_on_parse_failure _ ["Total"] (by decide)⟩

/-- C6: a StructuredRecord built from a response with the fenced JSON block
holding Invoice number A1 and Date 2024-01-01, extracted with those two
fields, is exactly `filename` plus those two keys with unchanged values. -/
theorem structured_record_roundtrip_fenced_invoice :
    (process_image "doc.png"
        "```json\n\x7b\"Invoice number\": \"A1\", \"Date\": \"2024-01-01\"\x7d\n```"
        (some ["Invoice number", "Date"])).2.2 =
      some [(Json.str "filename", Json.str "doc.png"),
        (Json.str "Invoice number", Json.str "A1"),
        (Json.str "Date", Json.str "2024-01-01")] := by decide

/-- C7: for a non-empty record collection (with string field names, the only
kind the data model admits), the structured export exists, its header is the
lexicographically sorted union of all keys across the records together with
`filename`, and each row renders a column the record lacks as the empty
string. -/
theorem structured_export_header_union_sorted (records : List JDict)
    (_hne : records ≠ []) (hstr : allKeysAreStrings records = true) :
    structuredCsv records =
      some (field_list records,
        records.map (fun r => (field_list records).map (fun k => csvCell r k))) ∧
    List.Sorted (· ≤ ·) (field_list records) ∧
    "filename" ∈ field_list records ∧
    (∀ k : String, k ∈ field_list records ↔
      k = "filename" ∨ ∃ r ∈ records, ∃ v, (Json.str k, v) ∈ r) ∧
    (∀ r ∈ records, ∀ k : String, (∀ v : Json, (Json.str k, v) ∉ r) →
      csvCell r k = Json.str "") := by
  have hmem : ∀ k : String, k ∈ field_list records ↔
      k = "filename" ∨ ∃ r ∈ records, ∃ v, (Json.str k, v) ∈ r := by
    intro k
    unfold field_list
    rw [Finset.mem_sort]
    unfold fieldFinset
    rw [foldl_union_mem]
    simp only [Finset.mem_singleton]
    constructor
    · rintro (hk | ⟨r, hr, hk⟩)
      · exact Or.inl hk
      · exact Or.inr ⟨r, hr, (mem_recordFields r k).mp hk⟩
    · rintro (hk | ⟨r, hr, hv⟩)
      · exact Or.inl hk
      · exact Or.inr ⟨r, hr, (mem_recordFields r k).mpr hv⟩
  refine ⟨?_, Finset.sort_sorted _ _, (hmem "filename").mpr (Or.inl rfl), hmem, ?_⟩
  · unfold structuredCsv
    rw [if_pos hstr]
  · intro r _ k hk
    exact csvCell_of_not_mem r k hk

/-- C7 witness: two records with differing key sets. -/
theorem structured_export_header_union_sorted_witness :
    (([[(Json.str "filename", Json.str "a"), (Json.str "Total", Json.str "5")],
        [(Json.str "filename", Json.str "b")]] : List JDict) ≠ []) ∧
    allKeysAreStrings [[(Json.str "filename", Json.str "a"), (Json.str "Total", Json.str "5")],
        [(Json.str "filename", Json.str "b")]] = true ∧
    "filename" ∈ field_list [[(Json.str "filename", Json.str "a"), (Json.str "Total", Json.str "5")],
        [(Json.str "filename", Json.str "b")]] :=
  ⟨by decide, by decide,
    (structured_export_header_union_sorted _ (by decide) (by decide)).2.2.1⟩

/-- C8: the precomputed total of work units (with PDF support installed)
equals the sum, over the uploaded files in one pass, of 1 per image, the
page count per PDF in per-page mode, 1 per PDF in whole-document mode, and
1 per PDF whose bytes cannot be parsed; being a pure function of the
uploads, it is fixed before and throughout the batch run. -/
theorem total_items_counts_units_as_claimed (perPage : Bool) (files : List FileSpec) :
    total_items true perPage files = (files.map (claimedUnitCount perPage)).sum := by
  have key : ∀ (l : List FileSpec) (n : Nat),
      l.foldl (fun acc f => acc + countItem true perPage f) n =
        n + (l.map (claimedUnitCount perPage)).sum := by
    intro l
    induction l with
    | nil => intro n; simp
    | cons f fs ih =>
      intro n
      rw [List.foldl_cons, ih (n + countItem true perPage f), List.map_cons, List.sum_cons,
        countItem_eq_claimed]
      omega
  simpa [total_items] using key files 0

/-- C9 counterexample: a fenced block decoding to the array of one pair
makes `dict.update` succeed on the pair-like element, so the result is the
non-empty mapping a ↦ b, not the empty mapping the claim requires for every
successfully parsed non-object value. -/
theorem extract_array_of_pairs_nonempty :
    Json.loads (fencedText "```json\n[[\"a\", \"b\"]]\n```") =
      some (Json.arr [Json.arr [Json.str "a", Json.str "b"]]) ∧
    extract_structured_data "```json\n[[\"a\", \"b\"]]\n```" ["x"] =
      [(Json.str "a", Json.str "b")] := by decide

/-- C9 amended: when the fenced block decodes to any value, the result is
exactly the (possibly partial) dict merge of that value — always a dict,
never an exception; for every non-container value (null, boolean, number,
string) the result is the empty mapping, but an array may contribute its
pair-like elements. -/
theorem extract_nonobject_swallowed (content : String) (fields : List String) (j : Json)
    (hf : fenceCond content = true) (hl : Json.loads (fencedText content) = some j) :
    extract_structured_data content fields = (dictUpdate [] j).1 ∧
    (jsonAtom j = true → extract_structured_data content fields = []) := by
  have he : extract_structured_data content fields = (dictUpdate [] j).1 := by
    unfold extract_structured_data
    rw [if_pos hf, hl]
  refine ⟨he, fun ha => ?_⟩
  rw [he]
  cases j with
  | null => rfl
  | bool b => rfl
  | num l => rfl
  | str s =>
    obtain ⟨data⟩ := s
    cases data with
    | nil => rfl
    | cons c cs => rfl
  | arr es => simp [jsonAtom] at ha
  | obj ms => simp [jsonAtom] at ha

/-- C9 amended witness: a fenced bare number yields the empty mapping. -/
theorem extract_nonobject_swallowed_witness :
    fenceCond "```json\n5\n```" = true ∧
    Json.loads (fencedText "```json\n5\n```") = some (Json.num "5") ∧
    extract_structured_data "```json\n5\n```" ["x"] = [] :=
  ⟨by decide, by decide,
    (extract_nonobject_swallowed _ ["x"] (Json.num "5") (by decide) (by decide)).2 (by decide)⟩

/-- C10: when the text contains a fenced JSON block (opening marker with a
later closing triple backtick), the result does not depend on the field list
at all — the quoted-field-name scan and whole-text decode are never
attempted — and if the fenced body fails to decode the result is the empty
mapping. -/
theorem fenced_block_preempts_field_scan (content : String) (fields fields2 : List String)
    (h : fenceCond content = true) :
    extract_structured_data content fields = extract_structured_data content fields2 ∧
    (Json.loads (fencedText content) = none → extract_structured_data content fields = []) := by
  have hx : ∀ fs : List String, extract_structured_data content fs =
      (match Json.loads (fencedText content) with
        | none => []
        | some j => (dictUpdate [] j).1) := by
    intro fs
    unfold extract_structured_data
    rw [if_pos h]
  refine ⟨(hx fields).trans (hx fields2).symm, fun hn => ?_⟩
  rw [hx fields, hn]

/-- C10 witness: a fenced block with an undecodable body yields the empty
mapping whatever the fields are. -/
theorem fenced_block_preempts_field_scan_witness :
    fenceCond "```json\nnot json\n```" = true ∧
    extract_structured_data "```json\nnot json\n```" ["json"] = [] :=
  ⟨by decide, (fenced_block_preempts_field_scan _ ["json"] [] (by decide)).2 (by decide)⟩
